import Mathlib

/-! Oracle message validation (x/oracle/types/msgs.go).

A shallow embedding of the stateless message layer of the oracle module:
the six message kinds, their `ValidateBasic` and `GetSigners` methods and the
constructors, followed by theorems about them.

Go strings are byte sequences and `len` counts bytes, so a string is a list of
bytes here.  Functions and constants that the file imports from the Cosmos SDK
and CometBFT (bech32 address parsing and printing, `tmhash.TruncatedSize`,
`sdk.DecimalPrecisionBits`) and the tuple parser are collaborators of the
code under study and are collected in `Env`; every general theorem holds for
all of their possible behaviours.
-/

namespace Oracle

set_option maxRecDepth 8000

/-! ## Bytes, strings, errors -/

/-- One byte. -/
abbrev Byte := Fin 256

/-- Go `string`: an immutable sequence of bytes; `len s` is `s.length`. -/
abbrev GoString := List Byte

/-- Go `[]byte`, the representation of `sdk.AccAddress`, `sdk.ValAddress`
and `AggregateVoteHash`. -/
abbrev Bytes := List Byte

/-- Bytes of an ASCII literal (each character below 128 is its own byte). -/
def ascii (s : String) : GoString := s.data.map (fun c => Fin.ofNat c.toNat)

/-- Registered sentinel errors met in msgs.go: four from `sdkerrors`, five from
the oracle module. -/
inductive Sentinel
  | ErrInvalidAddress
  | ErrUnknownRequest
  | ErrInvalidRequest
  | ErrInvalidCoins
  | ErrInvalidExchangeRate
  | ErrInvalidHash
  | ErrInvalidHashLength
  | ErrInvalidSaltLength
  | ErrInvalidSaltFormat
  deriving DecidableEq, Repr

/-- Errors of `encoding/hex`: `hex.ErrLength` and `hex.InvalidByteError`. -/
inductive HexError
  | ErrLength
  | InvalidByteError (b : Byte)
  deriving DecidableEq, Repr

/-- Argument handed to the `%s` of `errors.Wrapf`: the underlying error. -/
inductive Cause
  | hex (e : HexError)
  | text (e : String)
  deriving DecidableEq, Repr

/-- Value of Go type `error` as produced in msgs.go (a non-nil one):
a bare sentinel, `errors.Wrap sentinel description`, or
`errors.Wrapf sentinel format arg`. -/
inductive GoError
  | sentinel (e : Sentinel)
  | wrap (e : Sentinel) (description : String)
  | wrapf (e : Sentinel) (format : String) (arg : Cause)
  deriving DecidableEq, Repr

/-- Sentinel at the root of an error (what `errors.Is` finds). -/
def GoError.root : GoError → Sentinel
  | .sentinel e => e
  | .wrap e _ => e
  | .wrapf e _ _ => e

/-! ## encoding/hex -/

/-- Table `reverseHexTable` of encoding/hex: the value of a hex digit in either
case, `0xff` for every other byte. -/
def reverseHexTable (c : Byte) : Nat :=
  if 48 ≤ c.val ∧ c.val ≤ 57 then c.val - 48
  else if 97 ≤ c.val ∧ c.val ≤ 102 then c.val - 87
  else if 65 ≤ c.val ∧ c.val ≤ 70 then c.val - 55
  else 0xff

/-- Function `hex.DecodeString`: bytes are consumed in pairs; the first byte
that is no hex digit gives `InvalidByteError`, a dangling last digit gives
`ErrLength`.  The byte written is `(a << 4) | b`, which for `a, b ≤ 0x0f` is
`16 * a + b`. -/
def hexDecodeString : GoString → Except HexError Bytes
  | [] => .ok []
  | [p] =>
    if reverseHexTable p > 0x0f then .error (.InvalidByteError p)
    else .error .ErrLength
  | p :: q :: rest =>
    if reverseHexTable p > 0x0f then .error (.InvalidByteError p)
    else if reverseHexTable q > 0x0f then .error (.InvalidByteError q)
    else
      match hexDecodeString rest with
      | .error e => .error e
      | .ok bz => .ok (Fin.ofNat (reverseHexTable p * 16 + reverseHexTable q) :: bz)

/-- Character `hextable[n]` of encoding/hex, `hextable = "0123456789abcdef"`. -/
def hextable (n : Nat) : Byte :=
  if n < 10 then Fin.ofNat (48 + n) else Fin.ofNat (87 + n)

/-- Function `hex.EncodeToString`: two lower-case digits per byte,
`hextable[v >> 4]` then `hextable[v & 0x0f]`. -/
def hexEncodeToString (src : Bytes) : GoString :=
  src.flatMap (fun v => [hextable (v.val / 16), hextable (v.val % 16)])

/-- A hexadecimal digit: `0`-`9`, `a`-`f` or `A`-`F`. -/
def isHexDigit (c : Byte) : Bool :=
  (48 ≤ c.val && c.val ≤ 57) || (97 ≤ c.val && c.val ≤ 102) || (65 ≤ c.val && c.val ≤ 70)

/-! ## Collaborators -/

/-- Type `ExchangeRateTuple`: a denomination and a rate.  The rate is an
`sdk.Dec`, represented by the big integer it wraps (`Dec.BigInt()`). -/
structure ExchangeRateTuple where
  Denom : GoString
  ExchangeRate : Int
  deriving DecidableEq, Repr

/-- Method `big.Int.BitLen`: the length of the absolute value in bits
(`0` for `0`). -/
def BitLen (x : Int) : Nat := Nat.size x.natAbs

/-- What msgs.go takes from outside the file.  A Go result `(v, err)` is an
`Except`: `.error e` carries the text `err.Error()`. -/
structure Env where
  /-- Function `sdk.AccAddressFromBech32`. -/
  AccAddressFromBech32 : GoString → Except String Bytes
  /-- Function `sdk.ValAddressFromBech32`. -/
  ValAddressFromBech32 : GoString → Except String Bytes
  /-- Method `sdk.AccAddress.String`. -/
  AccAddressString : Bytes → GoString
  /-- Method `sdk.ValAddress.String`. -/
  ValAddressString : Bytes → GoString
  /-- Function `ParseExchangeRateTuples` of the module (vote.go). -/
  ParseExchangeRateTuples : GoString → Except String (List ExchangeRateTuple)
  /-- Constant `tmhash.TruncatedSize`. -/
  TruncatedSize : Nat
  /-- Constant `sdk.DecimalPrecisionBits`. -/
  DecimalPrecisionBits : Nat

/-- Modelled from the spec: `AggregateVoteHashFromHexString` (hash.go of the
module, not among the sources) is the `parseHash` of the Vote Hash Codec, a
hex-string parser; ValidateBasic compares the length itself afterwards, so the
parser is the hex decoding alone. -/
def AggregateVoteHashFromHexString (s : GoString) : Except HexError Bytes :=
  hexDecodeString s

/-- Modelled from the spec: `AggregateVoteHash.String` (hash.go of the module,
not among the sources) prints the digest as the hex string that `parseHash`
reads, two characters for each byte. -/
def AggregateVoteHash.String (h : Bytes) : GoString :=
  hexEncodeToString h

/-! ## Messages -/

/-- Message `MsgAggregateExchangeRatePrevote`. -/
structure MsgAggregateExchangeRatePrevote where
  Hash : GoString
  Feeder : GoString
  Validator : GoString
  deriving DecidableEq, Repr

/-- Message `MsgAggregateExchangeRateVote`. -/
structure MsgAggregateExchangeRateVote where
  Salt : GoString
  ExchangeRates : GoString
  Feeder : GoString
  Validator : GoString
  deriving DecidableEq, Repr

/-- Message `MsgDelegateFeedConsent`. -/
structure MsgDelegateFeedConsent where
  Operator : GoString
  Delegate : GoString
  deriving DecidableEq, Repr

/-- Message `MsgAddRequiredDenom`. -/
structure MsgAddRequiredDenom where
  Authority : GoString
  Symbol : GoString
  deriving DecidableEq, Repr

/-- Message `MsgRemoveRequiredDenom`. -/
structure MsgRemoveRequiredDenom where
  Authority : GoString
  Symbol : GoString
  deriving DecidableEq, Repr

/-- Message `MsgUpdateParams`; `Params` is a pointer to the module parameters
(type `P`), `none` for nil. -/
structure MsgUpdateParams (P : Type) where
  Authority : GoString
  Params : Option P

/-! ## MsgAggregateExchangeRatePrevote -/

/-- Constructor `NewMsgAggregateExchangeRatePrevote`. -/
def NewMsgAggregateExchangeRatePrevote (env : Env) (hash : Bytes) (feeder : Bytes)
    (validator : Bytes) : MsgAggregateExchangeRatePrevote :=
  { Hash := AggregateVoteHash.String hash
    Feeder := env.AccAddressString feeder
    Validator := env.ValAddressString validator }

/-- Method `MsgAggregateExchangeRatePrevote.GetSigners`; `.error err` is
`panic(err)`. -/
def MsgAggregateExchangeRatePrevote.GetSigners (env : Env)
    (msg : MsgAggregateExchangeRatePrevote) : Except String (List Bytes) :=
  match env.AccAddressFromBech32 msg.Feeder with
  | .error err => .error err
  | .ok feeder => .ok [feeder]

/-- Method `MsgAggregateExchangeRatePrevote.ValidateBasic`; `.ok ()` is the nil
error. -/
def MsgAggregateExchangeRatePrevote.ValidateBasic (env : Env)
    (msg : MsgAggregateExchangeRatePrevote) : Except GoError Unit :=
  match AggregateVoteHashFromHexString msg.Hash with
  | .error err => .error (.wrapf .ErrInvalidHash "Invalid vote hash (%s)" (.hex err))
  | .ok _ =>
    -- HEX encoding doubles the hash length
    if msg.Hash.length ≠ env.TruncatedSize * 2 then
      .error (.sentinel .ErrInvalidHashLength)
    else
      match env.AccAddressFromBech32 msg.Feeder with
      | .error err =>
        .error (.wrapf .ErrInvalidAddress "Invalid feeder address (%s)" (.text err))
      | .ok _ =>
        match env.ValAddressFromBech32 msg.Validator with
        | .error err =>
          .error (.wrapf .ErrInvalidAddress "Invalid operator address (%s)" (.text err))
        | .ok _ => .ok ()

/-! ## MsgAggregateExchangeRateVote -/

/-- Constructor `NewMsgAggregateExchangeRateVote`. -/
def NewMsgAggregateExchangeRateVote (env : Env) (salt : GoString)
    (exchangeRates : GoString) (feeder : Bytes) (validator : Bytes) :
    MsgAggregateExchangeRateVote :=
  { Salt := salt
    ExchangeRates := exchangeRates
    Feeder := env.AccAddressString feeder
    Validator := env.ValAddressString validator }

/-- Method `MsgAggregateExchangeRateVote.GetSigners`; `.error err` is
`panic(err)`. -/
def MsgAggregateExchangeRateVote.GetSigners (env : Env)
    (msg : MsgAggregateExchangeRateVote) : Except String (List Bytes) :=
  match env.AccAddressFromBech32 msg.Feeder with
  | .error err => .error err
  | .ok feeder => .ok [feeder]

/-- The `for _, exchangeRate := range exchangeRates` loop of the vote's
ValidateBasic: returns at the first rate whose bit length exceeds
`255 + sdk.DecimalPrecisionBits`. -/
def overflowLoop (env : Env) : List ExchangeRateTuple → Except GoError Unit
  | [] => .ok ()
  | exchangeRate :: rest =>
    -- Check overflow bit length
    if BitLen exchangeRate.ExchangeRate > 255 + env.DecimalPrecisionBits then
      .error (.wrap .ErrInvalidExchangeRate "overflow")
    else overflowLoop env rest

/-- Tail of the vote's ValidateBasic: the two salt checks. -/
def saltChecks (msg : MsgAggregateExchangeRateVote) : Except GoError Unit :=
  if msg.Salt.length ≠ 64 then .error (.sentinel .ErrInvalidSaltLength)
  else
    match AggregateVoteHashFromHexString msg.Salt with
    | .error _ => .error (.wrap .ErrInvalidSaltFormat "salt must be a valid hex string")
    | .ok _ => .ok ()

/-- Method `MsgAggregateExchangeRateVote.ValidateBasic`; `.ok ()` is the nil
error. -/
def MsgAggregateExchangeRateVote.ValidateBasic (env : Env)
    (msg : MsgAggregateExchangeRateVote) : Except GoError Unit :=
  match env.AccAddressFromBech32 msg.Feeder with
  | .error err =>
    .error (.wrapf .ErrInvalidAddress "Invalid feeder address (%s)" (.text err))
  | .ok _ =>
    match env.ValAddressFromBech32 msg.Validator with
    | .error err =>
      .error (.wrapf .ErrInvalidAddress "Invalid operator address (%s)" (.text err))
    | .ok _ =>
      if msg.ExchangeRates.length = 0 then
        .error (.wrap .ErrUnknownRequest "must provide at least one oracle exchange rate")
      else if msg.ExchangeRates.length > 4096 then
        .error (.wrap .ErrInvalidRequest
          "exchange rates string can not exceed 4096 characters")
      else
        match env.ParseExchangeRateTuples msg.ExchangeRates with
        | .error err =>
          .error (.wrap .ErrInvalidCoins
            ("failed to parse exchange rates string cause: " ++ err))
        | .ok exchangeRates =>
          match overflowLoop env exchangeRates with
          | .error e => .error e
          | .ok _ => saltChecks msg

/-! ## MsgDelegateFeedConsent -/

/-- Constructor `NewMsgDelegateFeedConsent`. -/
def NewMsgDelegateFeedConsent (env : Env) (operatorAddress : Bytes)
    (feederAddress : Bytes) : MsgDelegateFeedConsent :=
  { Operator := env.ValAddressString operatorAddress
    Delegate := env.AccAddressString feederAddress }

/-- Method `MsgDelegateFeedConsent.GetSigners`; `.error err` is `panic(err)`.
The conversion `sdk.AccAddress(operator)` keeps the bytes. -/
def MsgDelegateFeedConsent.GetSigners (env : Env) (msg : MsgDelegateFeedConsent) :
    Except String (List Bytes) :=
  match env.ValAddressFromBech32 msg.Operator with
  | .error err => .error err
  | .ok operator => .ok [operator]

/-- Method `MsgDelegateFeedConsent.ValidateBasic`. -/
def MsgDelegateFeedConsent.ValidateBasic (env : Env) (msg : MsgDelegateFeedConsent) :
    Except GoError Unit :=
  match env.ValAddressFromBech32 msg.Operator with
  | .error err =>
    .error (.wrapf .ErrInvalidAddress "Invalid operator address (%s)" (.text err))
  | .ok _ =>
    match env.AccAddressFromBech32 msg.Delegate with
    | .error err =>
      .error (.wrapf .ErrInvalidAddress "Invalid delegate address (%s)" (.text err))
    | .ok _ => .ok ()

/-! ## MsgAddRequiredDenom, MsgRemoveRequiredDenom, MsgUpdateParams -/

/-- The statement `addr, _ := sdk.AccAddressFromBech32(s)`: the error is
dropped and `addr` is what came with it, which for every error of
`AccAddressFromBech32` is an empty address (nil or `AccAddress{}`). -/
def addrIgnoringError (env : Env) (s : GoString) : Bytes :=
  match env.AccAddressFromBech32 s with
  | .error _ => []
  | .ok addr => addr

/-- Constructor `NewMsgAddRequiredDenom`: Authority keeps its zero value. -/
def NewMsgAddRequiredDenom (symbol : GoString) : MsgAddRequiredDenom :=
  { Authority := [], Symbol := symbol }

/-- Method `MsgAddRequiredDenom.GetSigners`. -/
def MsgAddRequiredDenom.GetSigners (env : Env) (msg : MsgAddRequiredDenom) :
    Except String (List Bytes) :=
  .ok [addrIgnoringError env msg.Authority]

/-- Method `MsgAddRequiredDenom.ValidateBasic`. -/
def MsgAddRequiredDenom.ValidateBasic (env : Env) (msg : MsgAddRequiredDenom) :
    Except GoError Unit :=
  match env.AccAddressFromBech32 msg.Authority with
  | .error err =>
    .error (.wrapf .ErrInvalidAddress "Invalid authority address (%s)" (.text err))
  | .ok _ => .ok ()

/-- Constructor `NewMsgRemoveRequiredDenom`: Authority keeps its zero value. -/
def NewMsgRemoveRequiredDenom (symbol : GoString) : MsgRemoveRequiredDenom :=
  { Authority := [], Symbol := symbol }

/-- Method `MsgRemoveRequiredDenom.GetSigners`. -/
def MsgRemoveRequiredDenom.GetSigners (env : Env) (msg : MsgRemoveRequiredDenom) :
    Except String (List Bytes) :=
  .ok [addrIgnoringError env msg.Authority]

/-- Method `MsgRemoveRequiredDenom.ValidateBasic`. -/
def MsgRemoveRequiredDenom.ValidateBasic (env : Env) (msg : MsgRemoveRequiredDenom) :
    Except GoError Unit :=
  match env.AccAddressFromBech32 msg.Authority with
  | .error err =>
    .error (.wrapf .ErrInvalidAddress "Invalid authority address (%s)" (.text err))
  | .ok _ => .ok ()

/-- Constructor `NewMsgUpdateParams`: Authority keeps its zero value. -/
def NewMsgUpdateParams {P : Type} (params : Option P) : MsgUpdateParams P :=
  { Authority := [], Params := params }

/-- Method `MsgUpdateParams.GetSigners`. -/
def MsgUpdateParams.GetSigners {P : Type} (env : Env) (msg : MsgUpdateParams P) :
    Except String (List Bytes) :=
  .ok [addrIgnoringError env msg.Authority]

/-- Method `MsgUpdateParams.ValidateBasic`. -/
def MsgUpdateParams.ValidateBasic {P : Type} (env : Env) (msg : MsgUpdateParams P) :
    Except GoError Unit :=
  match env.AccAddressFromBech32 msg.Authority with
  | .error err =>
    .error (.wrapf .ErrInvalidAddress "Invalid authority address (%s)" (.text err))
  | .ok _ => .ok ()

/-! ## A reference configuration

The general theorems quantify over `Env`.  The closed examples need one
concrete environment; `refEnv` is the SDK with its default address rules, the
Kujira prefixes, CometBFT's 20-byte truncated hash and 60 precision bits.  The
data part of an address is written in hexadecimal (the base-32 alphabet and
checksum of bech32 play no part in msgs.go), and a rate is an integer amount
followed by its denom. -/

/-- White space of `strings.TrimSpace` within ASCII: tab, line feed, vertical
tab, form feed, carriage return and space. -/
def isSpace (c : Byte) : Bool := (9 ≤ c.val && c.val ≤ 13) || c.val = 32

/-- Function `strings.TrimSpace` on ASCII white space. -/
def TrimSpace (s : GoString) : GoString :=
  ((s.dropWhile isSpace).reverse.dropWhile isSpace).reverse

/-- Function `strings.Split s ","` for a non-empty separator: the pieces
between the commas, at least one. -/
def splitComma : GoString → List GoString
  | [] => [[]]
  | c :: cs =>
    if c.val = 44 then [] :: splitComma cs
    else
      match splitComma cs with
      | [] => [[c]]
      | piece :: pieces => (c :: piece) :: pieces

/-- Function `strings.ToUpper` on ASCII letters. -/
def ToUpper (s : GoString) : GoString :=
  s.map (fun c => if 97 ≤ c.val ∧ c.val ≤ 122 then Fin.ofNat (c.val - 32) else c)

/-- Value of a string of decimal digits. -/
def digitsValue (ds : GoString) : Nat :=
  ds.foldl (fun acc d => acc * 10 + (d.val - 48)) 0

/-- Rule `sdk.VerifyAddressFormat` without a custom verifier: an address has
between 1 and `address.MaxAddrLen = 255` bytes. -/
def VerifyAddressFormat (bz : Bytes) : Except String Unit :=
  if bz.length = 0 then .error "addresses cannot be empty"
  else if bz.length > 255 then .error "address max length is 255"
  else .ok ()

/-- Remove `pre` from the front of `s`, if it is there. -/
def dropPrefix : GoString → GoString → Option GoString
  | [], s => some s
  | _ :: _, [] => none
  | p :: ps, c :: cs => if p = c then dropPrefix ps cs else none

/-- Address printing of the reference configuration: the empty address prints
as the empty string, any other as prefix, separator `1` and data. -/
def refAddressString (hrp : String) (bz : Bytes) : GoString :=
  if bz.length = 0 then [] else ascii hrp ++ ascii "1" ++ hexEncodeToString bz

/-- Address parsing of the reference configuration, in the order of
`sdk.AccAddressFromBech32`: a blank string, a foreign prefix, undecodable data
and a bad length are errors. -/
def refAddressFromBech32 (hrp : String) (address : GoString) : Except String Bytes :=
  if (TrimSpace address).length = 0 then .error "empty address string is not allowed"
  else
    match dropPrefix (ascii hrp ++ ascii "1") address with
    | none => .error "invalid Bech32 prefix"
    | some data =>
      match hexDecodeString data with
      | .error _ => .error "decoding bech32 failed"
      | .ok bz =>
        match VerifyAddressFormat bz with
        | .error e => .error e
        | .ok _ => .ok bz

/-- Coin parsing of the reference configuration: surrounding white space is
skipped, as `sdk.ParseDecCoin` does, then come decimal digits and a denom of
ASCII letters; the amount `n` is the decimal with big integer `n * 10^18`, and
the denom is given in upper case. -/
def refParseDecCoin (coinStr : GoString) : Except String (GoString × Int) :=
  let coinStr := TrimSpace coinStr
  let amount := coinStr.takeWhile (fun c => 48 ≤ c.val && c.val ≤ 57)
  let denom := coinStr.dropWhile (fun c => 48 ≤ c.val && c.val ≤ 57)
  if amount.length = 0 then .error "invalid decimal coin expression"
  else if denom.length = 0 then .error "invalid decimal coin expression"
  else if denom.all (fun c => (97 ≤ c.val && c.val ≤ 122) || (65 ≤ c.val && c.val ≤ 90)) then
    .ok (ToUpper denom, (digitsValue amount : Int) * 10 ^ 18)
  else .error "invalid denom"

/-- The loop of the tuple parser over the comma-separated pieces: each piece is
read as one pair by `parseDecCoin`; `seen` holds the denoms read so far, for
the duplicate check. -/
def parseLoop (parseDecCoin : GoString → Except String (GoString × Int))
    (seen : List GoString) : List GoString → Except String (List ExchangeRateTuple)
  | [] => .ok []
  | tupleStr :: rest =>
    match parseDecCoin tupleStr with
    | .error e => .error e
    | .ok (denom, amount) =>
      if denom ∈ seen then .error "duplicated denom"
      else
        match parseLoop parseDecCoin (denom :: seen) rest with
        | .error e => .error e
        | .ok tuples => .ok ({ Denom := denom, ExchangeRate := amount } :: tuples)

/-- Modelled from the spec: `ParseExchangeRateTuples` (vote.go of the module,
not among the sources) is the `parse` of the Exchange Rate Tuple Parser: the
input is a comma-separated list of pairs of rate and denom, read in order; a
piece that is no pair is a parse failure, and so is a denom given twice.  The
reading of one pair, `sdk.ParseDecCoin`, is the parameter `parseDecCoin`. -/
def specParseExchangeRateTuples (parseDecCoin : GoString → Except String (GoString × Int))
    (tuplesStr : GoString) : Except String (List ExchangeRateTuple) :=
  parseLoop parseDecCoin [] (splitComma tuplesStr)

/-- The tuple parser of the reference configuration. -/
def refParseExchangeRateTuples (tuplesStr : GoString) :
    Except String (List ExchangeRateTuple) :=
  specParseExchangeRateTuples refParseDecCoin tuplesStr

/-- The reference configuration. -/
def refEnv : Env :=
  { AccAddressFromBech32 := refAddressFromBech32 "kujira"
    ValAddressFromBech32 := refAddressFromBech32 "kujiravaloper"
    AccAddressString := refAddressString "kujira"
    ValAddressString := refAddressString "kujiravaloper"
    ParseExchangeRateTuples := refParseExchangeRateTuples
    TruncatedSize := 20
    DecimalPrecisionBits := 60 }

/-! ## Sample messages of the reference configuration -/

/-- A feeder string of the reference configuration, for the address `[1, 2]`. -/
def sampleFeeder : GoString := ascii "kujira10102"

/-- A validator string of the reference configuration, for the address `[3]`. -/
def sampleValidator : GoString := ascii "kujiravaloper103"

/-- A salt of 64 hex digits (all `0`). -/
def sampleSalt : GoString := List.replicate 64 48

/-- One rate, `1ukuji`, padded with spaces to 4096 bytes. -/
def paddedRates : GoString := ascii "1ukuji" ++ List.replicate 4090 32

/-- The vote whose rates are `paddedRates`. -/
def paddedVote : MsgAggregateExchangeRateVote :=
  { Salt := sampleSalt, ExchangeRates := paddedRates,
    Feeder := sampleFeeder, Validator := sampleValidator }

/-- A vote with one rate whose big integer has bit length exactly
`255 + 60 = 315`, the largest that the guard lets through. -/
def boundaryVote : MsgAggregateExchangeRateVote :=
  { Salt := sampleSalt
    ExchangeRates := ascii "33374797436264220037422214158899251790667258161822699530422525122222183215323ukuji"
    Feeder := sampleFeeder, Validator := sampleValidator }

/-- A vote with one rate whose big integer has bit length 316. -/
def overflowVote : MsgAggregateExchangeRateVote :=
  { Salt := sampleSalt
    ExchangeRates := ascii "66749594872528440074844428317798503581334516323645399060845050244444366430646ukuji"
    Feeder := sampleFeeder, Validator := sampleValidator }

/-- A prevote of the reference configuration whose Hash is 40 hex digits. -/
def samplePrevote : MsgAggregateExchangeRatePrevote :=
  { Hash := List.replicate 40 48, Feeder := sampleFeeder, Validator := sampleValidator }

/-- The same prevote with a Hash of 64 hex digits. -/
def longHashPrevote : MsgAggregateExchangeRatePrevote :=
  { Hash := List.replicate 64 48, Feeder := sampleFeeder, Validator := sampleValidator }

/-- A delegation of the reference configuration. -/
def sampleDelegation : MsgDelegateFeedConsent :=
  { Operator := sampleValidator, Delegate := sampleFeeder }

/-- A prevote of the reference configuration whose Feeder is no address. -/
def badFeederPrevote : MsgAggregateExchangeRatePrevote :=
  { Hash := List.replicate 40 48, Feeder := ascii "feeder", Validator := sampleValidator }

/-- The eight stateless checks of a vote in the order of the specification
(feeder address, validator address, empty rates, oversized rates, parse,
overflow, salt length, salt format), each with the error of its failure or
`none` when it passes.  The overflow check looks at the parsed rates and has
nothing to look at when the parse fails. -/
def specVoteChecks (env : Env) (msg : MsgAggregateExchangeRateVote) :
    List (Option GoError) :=
  [ (match env.AccAddressFromBech32 msg.Feeder with
      | .error err =>
        some (.wrapf .ErrInvalidAddress "Invalid feeder address (%s)" (.text err))
      | .ok _ => none),
    (match env.ValAddressFromBech32 msg.Validator with
      | .error err =>
        some (.wrapf .ErrInvalidAddress "Invalid operator address (%s)" (.text err))
      | .ok _ => none),
    (if msg.ExchangeRates.length = 0 then
      some (.wrap .ErrUnknownRequest "must provide at least one oracle exchange rate")
     else none),
    (if msg.ExchangeRates.length > 4096 then
      some (.wrap .ErrInvalidRequest "exchange rates string can not exceed 4096 characters")
     else none),
    (match env.ParseExchangeRateTuples msg.ExchangeRates with
      | .error err =>
        some (.wrap .ErrInvalidCoins ("failed to parse exchange rates string cause: " ++ err))
      | .ok _ => none),
    (match env.ParseExchangeRateTuples msg.ExchangeRates with
      | .error _ => none
      | .ok tuples =>
        if tuples.any (fun t => BitLen t.ExchangeRate > 255 + env.DecimalPrecisionBits) then
          some (.wrap .ErrInvalidExchangeRate "overflow")
        else none),
    (if msg.Salt.length ≠ 64 then some (.sentinel .ErrInvalidSaltLength) else none),
    (if msg.Salt.all isHexDigit then none
     else some (.wrap .ErrInvalidSaltFormat "salt must be a valid hex string")) ]

/-- Outcome of a list of checks: the error of the first that fails, nil when
all pass. -/
def firstFailure : List (Option GoError) → Except GoError Unit
  | [] => .ok ()
  | none :: rest => firstFailure rest
  | some e :: _ => .error e

/-! ## Lemmas on encoding/hex -/

theorem reverseHexTable_le_iff (c : Byte) :
    reverseHexTable c ≤ 0x0f ↔ isHexDigit c = true := by
  unfold reverseHexTable isHexDigit
  simp only [Bool.or_eq_true, Bool.and_eq_true, decide_eq_true_eq]
  split_ifs <;> omega

theorem not_isHexDigit_of_gt {c : Byte} (h : reverseHexTable c > 0x0f) :
    ¬ isHexDigit c = true := by
  rw [← reverseHexTable_le_iff]; omega

theorem isHexDigit_of_not_gt {c : Byte} (h : ¬ reverseHexTable c > 0x0f) :
    isHexDigit c = true := by
  rw [← reverseHexTable_le_iff]; omega

/-- Decoding succeeds exactly on the even-length strings of hex digits. -/
theorem hexDecodeString_ok_iff (s : GoString) :
    (∃ bz, hexDecodeString s = .ok bz) ↔
      s.length % 2 = 0 ∧ ∀ c ∈ s, isHexDigit c = true := by
  induction s using hexDecodeString.induct with
  | case1 => simp [hexDecodeString]
  | case2 p h => simp [hexDecodeString, h]
  | case3 p h => simp [hexDecodeString, h]
  | case4 p q rest hp =>
    simp [hexDecodeString, hp, not_isHexDigit_of_gt hp]
  | case5 p q rest hp hq =>
    simp [hexDecodeString, hp, hq, not_isHexDigit_of_gt hq]
  | case6 p q rest hp hq e he ih =>
    have hno : ¬ ∃ bz, hexDecodeString rest = .ok bz := by simp [he]
    rw [ih] at hno
    simp only [hexDecodeString, hp, hq, he, if_false]
    constructor
    · rintro ⟨bz, hbz⟩
      cases hbz
    rintro ⟨hlen, hall⟩
    exfalso
    apply hno
    refine ⟨?_, fun c hc => hall c (by simp [hc])⟩
    simp only [List.length_cons] at hlen
    omega
  | case7 p q rest hp hq bz hbz ih =>
    have hyes : ∃ bz, hexDecodeString rest = .ok bz := ⟨bz, hbz⟩
    rw [ih] at hyes
    simp only [hexDecodeString, hp, hq, hbz, if_false, Except.ok.injEq, exists_eq',
      true_iff, List.length_cons, List.mem_cons]
    refine ⟨by omega, ?_⟩
    rintro c (rfl | rfl | hc)
    · exact isHexDigit_of_not_gt hp
    · exact isHexDigit_of_not_gt hq
    · exact hyes.2 c hc

/-- A decoded string is twice as long as the bytes it yields. -/
theorem hexDecodeString_length (s : GoString) (bz : Bytes)
    (h : hexDecodeString s = .ok bz) : s.length = 2 * bz.length := by
  induction s using hexDecodeString.induct generalizing bz with
  | case1 => simp [hexDecodeString] at h; subst h; rfl
  | case2 p hp => simp [hexDecodeString, hp] at h
  | case3 p hp => simp [hexDecodeString, hp] at h
  | case4 p q rest hp => simp [hexDecodeString, hp] at h
  | case5 p q rest hp hq => simp [hexDecodeString, hp, hq] at h
  | case6 p q rest hp hq e he ih => simp [hexDecodeString, hp, hq, he] at h
  | case7 p q rest hp hq bz0 hbz ih =>
    simp [hexDecodeString, hp, hq, hbz] at h
    subst h
    have := ih bz0 hbz
    simp only [List.length_cons]
    omega

/-- A string of odd length never decodes. -/
theorem hexDecodeString_odd (s : GoString) (h : s.length % 2 = 1) :
    ∃ e, hexDecodeString s = .error e := by
  cases hd : hexDecodeString s with
  | error e => exact ⟨e, rfl⟩
  | ok bz =>
    have := ((hexDecodeString_ok_iff s).mp ⟨bz, hd⟩).1
    omega

theorem hextable_digit (n : Nat) (h : n < 16) : reverseHexTable (hextable n) = n := by
  interval_cases n <;> rfl

/-- Decoding inverts encoding. -/
theorem hexDecodeString_hexEncodeToString (bz : Bytes) :
    hexDecodeString (hexEncodeToString bz) = .ok bz := by
  induction bz with
  | nil => rfl
  | cons v bz ih =>
    have h1 : v.val / 16 < 16 := by omega
    have h2 : v.val % 16 < 16 := by omega
    have hcons : hexEncodeToString (v :: bz) =
        hextable (v.val / 16) :: hextable (v.val % 16) :: hexEncodeToString bz := by
      simp [hexEncodeToString]
    rw [hcons]
    simp only [hexDecodeString, hextable_digit _ h1, hextable_digit _ h2, ih]
    have hv : (Fin.ofNat (v.val / 16 * 16 + v.val % 16) : Fin 256) = v := by
      apply Fin.ext
      show (v.val / 16 * 16 + v.val % 16) % 256 = v.val
      omega
    have g1 : ¬ v.val / 16 > 15 := by omega
    have g2 : ¬ v.val % 16 > 15 := by omega
    simp only [g1, g2, if_false, hv]

theorem hexEncodeToString_length (bz : Bytes) :
    (hexEncodeToString bz).length = 2 * bz.length := by
  have := hexDecodeString_length _ _ (hexDecodeString_hexEncodeToString bz)
  exact this

/-- The hex parser of the module accepts exactly the even-length strings of
hex digits. -/
theorem parseHash_ok_iff (s : GoString) :
    (∃ bz, AggregateVoteHashFromHexString s = .ok bz) ↔
      s.length % 2 = 0 ∧ ∀ c ∈ s, isHexDigit c = true :=
  hexDecodeString_ok_iff s

/-! ## Lemmas on the vote's ValidateBasic -/

/-- The overflow loop can only fail with the overflow error. -/
theorem overflowLoop_cases (env : Env) (tuples : List ExchangeRateTuple) :
    (overflowLoop env tuples = .ok () ∧
        ∀ t ∈ tuples, BitLen t.ExchangeRate ≤ 255 + env.DecimalPrecisionBits) ∨
      (overflowLoop env tuples = .error (.wrap .ErrInvalidExchangeRate "overflow") ∧
        ∃ t ∈ tuples, BitLen t.ExchangeRate > 255 + env.DecimalPrecisionBits) := by
  induction tuples with
  | nil => left; simp [overflowLoop]
  | cons t ts ih =>
    by_cases h : BitLen t.ExchangeRate > 255 + env.DecimalPrecisionBits
    · right
      exact ⟨by simp [overflowLoop, h], t, by simp, h⟩
    · rcases ih with ⟨h1, h2⟩ | ⟨h1, t0, ht0, h2⟩
      · left
        refine ⟨by simp [overflowLoop, h, h1], ?_⟩
        intro t1 ht1
        rcases List.mem_cons.mp ht1 with rfl | hmem
        · omega
        · exact h2 t1 hmem
      · right
        exact ⟨by simp [overflowLoop, h, h1], t0, by simp [ht0], h2⟩

theorem overflowLoop_ok (env : Env) (tuples : List ExchangeRateTuple)
    (h : ∀ t ∈ tuples, BitLen t.ExchangeRate ≤ 255 + env.DecimalPrecisionBits) :
    overflowLoop env tuples = .ok () := by
  rcases overflowLoop_cases env tuples with ⟨h1, _⟩ | ⟨_, t, ht, h2⟩
  · exact h1
  · have := h t ht
    omega

theorem overflowLoop_error (env : Env) (tuples : List ExchangeRateTuple)
    (t : ExchangeRateTuple) (ht : t ∈ tuples)
    (h : BitLen t.ExchangeRate > 255 + env.DecimalPrecisionBits) :
    overflowLoop env tuples = .error (.wrap .ErrInvalidExchangeRate "overflow") := by
  rcases overflowLoop_cases env tuples with ⟨_, h2⟩ | ⟨h1, _⟩
  · have := h2 t ht
    omega
  · exact h1

/-- The salt checks pass exactly on 64 hex digits. -/
theorem saltChecks_ok_iff (msg : MsgAggregateExchangeRateVote) :
    saltChecks msg = .ok () ↔
      msg.Salt.length = 64 ∧ ∀ c ∈ msg.Salt, isHexDigit c = true := by
  unfold saltChecks
  by_cases hl : msg.Salt.length = 64
  · cases hd : AggregateVoteHashFromHexString msg.Salt with
    | error e =>
      have hno : ¬ ∃ bz, AggregateVoteHashFromHexString msg.Salt = .ok bz := by simp [hd]
      rw [parseHash_ok_iff] at hno
      simp only [hl, ne_eq, not_true_eq_false, if_false, true_and]
      constructor
      · intro h; cases h
      · intro h; exact absurd ⟨by omega, h⟩ hno
    | ok bz =>
      have hyes := (parseHash_ok_iff msg.Salt).mp ⟨bz, hd⟩
      simp only [hl, ne_eq, not_true_eq_false, if_false, true_and, true_iff]
      exact hyes.2
  · simp [hl]

/-- Once the addresses, the length and the parse are in order, ValidateBasic
is the overflow loop followed by the salt checks. -/
theorem vote_validateBasic_after_parse (env : Env) (msg : MsgAggregateExchangeRateVote)
    (feeder validator : Bytes) (tuples : List ExchangeRateTuple)
    (hf : env.AccAddressFromBech32 msg.Feeder = .ok feeder)
    (hv : env.ValAddressFromBech32 msg.Validator = .ok validator)
    (h1 : 1 ≤ msg.ExchangeRates.length) (h2 : msg.ExchangeRates.length ≤ 4096)
    (hp : env.ParseExchangeRateTuples msg.ExchangeRates = .ok tuples) :
    msg.ValidateBasic env =
      (match overflowLoop env tuples with
       | .error e => .error e
       | .ok _ => saltChecks msg) := by
  have e0 : ¬ msg.ExchangeRates.length = 0 := by omega
  have e1 : ¬ msg.ExchangeRates.length > 4096 := by omega
  simp only [MsgAggregateExchangeRateVote.ValidateBasic, hf, hv, hp, e0, e1, if_false]

/-! ## Facts about the reference configuration -/

theorem dropWhile_isSpace_spaces (n : Nat) (r : GoString) :
    (List.replicate n (32 : Byte) ++ r).dropWhile isSpace = r.dropWhile isSpace := by
  induction n with
  | zero => simp
  | succ n ih =>
    have h32 : isSpace (32 : Byte) = true := by decide
    simp only [List.replicate_succ, List.cons_append, List.dropWhile_cons, h32, if_true, ih]

/-- Trailing spaces are trimmed away. -/
theorem TrimSpace_pad (c : Byte) (s : GoString) (n : Nat) (hc : isSpace c = false) :
    TrimSpace (c :: s ++ List.replicate n 32) = TrimSpace (c :: s) := by
  have hrev : (c :: (s ++ List.replicate n 32)).reverse =
      List.replicate n (32 : Byte) ++ (c :: s).reverse := by
    rw [← List.cons_append, List.reverse_append, List.reverse_replicate]
  simp only [TrimSpace, List.cons_append, List.dropWhile_cons, hc, Bool.false_eq_true,
    if_false]
  rw [hrev, dropWhile_isSpace_spaces]

theorem sampleFeeder_ok : refEnv.AccAddressFromBech32 sampleFeeder = .ok [1, 2] := by rfl

theorem sampleValidator_ok : refEnv.ValAddressFromBech32 sampleValidator = .ok [3] := by rfl

theorem sampleSalt_hex : ∀ c ∈ sampleSalt, isHexDigit c = true := by
  intro c hc
  rw [sampleSalt, List.mem_replicate] at hc
  rw [hc.2]
  rfl

theorem sampleSalt_length : sampleSalt.length = 64 := by
  rw [sampleSalt, List.length_replicate]

theorem paddedRates_length : paddedRates.length = 4096 := by
  rw [paddedRates, List.length_append, List.length_replicate]
  rfl

theorem splitComma_no_comma (s : GoString) (h : ∀ c ∈ s, c.val ≠ 44) :
    splitComma s = [s] := by
  induction s with
  | nil => rfl
  | cons c cs ih =>
    have hc : ¬ c.val = 44 := h c (by simp)
    have hcs := ih (fun x hx => h x (by simp [hx]))
    simp only [splitComma, hc, if_false, hcs]

theorem refParseDecCoin_of_trim (s : GoString) (h : TrimSpace s = ascii "1ukuji") :
    refParseDecCoin s = .ok (ascii "UKUJI", 10 ^ 18) := by
  unfold refParseDecCoin
  simp only [h]
  rfl

theorem refParse_of_trim (s : GoString) (hno : ∀ c ∈ s, c.val ≠ 44)
    (h : TrimSpace s = ascii "1ukuji") :
    refEnv.ParseExchangeRateTuples s =
      .ok [{ Denom := ascii "UKUJI", ExchangeRate := 10 ^ 18 }] := by
  show parseLoop refParseDecCoin [] (splitComma s) = _
  rw [splitComma_no_comma s hno]
  simp only [parseLoop, refParseDecCoin_of_trim s h]
  rfl

theorem paddedRates_parse :
    refEnv.ParseExchangeRateTuples paddedRates =
      .ok [{ Denom := ascii "UKUJI", ExchangeRate := 10 ^ 18 }] := by
  have htrim : TrimSpace paddedRates = ascii "1ukuji" := by
    have h := TrimSpace_pad 49 (ascii "ukuji") 4090 (by decide)
    have e : ascii "1ukuji" = (49 : Byte) :: ascii "ukuji" := rfl
    rw [paddedRates, e, h]
    rfl
  have hno : ∀ c ∈ paddedRates, c.val ≠ 44 := by
    intro c hc
    rw [paddedRates, List.mem_append] at hc
    rcases hc with hc | hc
    · revert c
      decide
    · rw [List.mem_replicate] at hc
      rw [hc.2]
      decide
  exact refParse_of_trim paddedRates hno htrim

theorem sample_rate_fits : ∀ t ∈ [({ Denom := ascii "UKUJI", ExchangeRate := 10 ^ 18 } :
    ExchangeRateTuple)], BitLen t.ExchangeRate ≤ 255 + refEnv.DecimalPrecisionBits := by
  intro t ht
  rw [List.mem_singleton] at ht
  subst ht
  show Nat.size (Int.natAbs (10 ^ 18)) ≤ 255 + 60
  rw [Nat.size_le]
  norm_num

/-! ## The claims -/

/-- C1: with valid feeder and validator addresses, an empty exchange-rate
string is rejected with the wrapped ErrUnknownRequest, a string of 4097 bytes
or more with the wrapped ErrInvalidRequest, and a string of exactly 4096 bytes
that parses into rates within the overflow guard, with a salt of 64 hex
digits, is accepted. -/
theorem vote_exchangeRates_length_bounds (env : Env) (msg : MsgAggregateExchangeRateVote)
    (feeder validator : Bytes)
    (hf : env.AccAddressFromBech32 msg.Feeder = .ok feeder)
    (hv : env.ValAddressFromBech32 msg.Validator = .ok validator) :
    (msg.ExchangeRates.length = 0 →
      msg.ValidateBasic env =
        .error (.wrap .ErrUnknownRequest "must provide at least one oracle exchange rate")) ∧
    (4097 ≤ msg.ExchangeRates.length →
      msg.ValidateBasic env =
        .error (.wrap .ErrInvalidRequest
          "exchange rates string can not exceed 4096 characters")) ∧
    (msg.ExchangeRates.length = 4096 →
      ∀ tuples, env.ParseExchangeRateTuples msg.ExchangeRates = .ok tuples →
        (∀ t ∈ tuples, BitLen t.ExchangeRate ≤ 255 + env.DecimalPrecisionBits) →
        msg.Salt.length = 64 → (∀ c ∈ msg.Salt, isHexDigit c = true) →
        msg.ValidateBasic env = .ok ()) := by
  refine ⟨?_, ?_, ?_⟩
  · intro h0
    simp only [MsgAggregateExchangeRateVote.ValidateBasic, hf, hv, h0, if_true]
  · intro hbig
    have e0 : ¬ msg.ExchangeRates.length = 0 := by omega
    have e1 : msg.ExchangeRates.length > 4096 := by omega
    simp only [MsgAggregateExchangeRateVote.ValidateBasic, hf, hv, e0, e1, if_false, if_true]
  · intro hlen tuples hp hfit hs hhex
    rw [vote_validateBasic_after_parse env msg feeder validator tuples hf hv
      (by omega) (by omega) hp, overflowLoop_ok env tuples hfit]
    exact (saltChecks_ok_iff msg).mpr ⟨hs, hhex⟩

/-- C1, witness: a vote of the reference configuration with exactly 4096 bytes
of exchange rates is accepted. -/
theorem vote_exchangeRates_length_bounds_witness :
    paddedVote.ExchangeRates.length = 4096 ∧ paddedVote.ValidateBasic refEnv = .ok () :=
  ⟨paddedRates_length,
    (vote_exchangeRates_length_bounds refEnv paddedVote [1, 2] [3] sampleFeeder_ok
      sampleValidator_ok).2.2 paddedRates_length _ paddedRates_parse sample_rate_fits
      sampleSalt_length sampleSalt_hex⟩

/-- C2: for a vote that passes the address, length, parse and overflow checks,
a salt whose length is not 64 gives the bare ErrInvalidSaltLength, a salt of
length 64 that is not all hex digits gives the wrapped ErrInvalidSaltFormat,
and a salt of 64 hex digits is accepted. -/
theorem vote_salt_checks (env : Env) (msg : MsgAggregateExchangeRateVote)
    (feeder validator : Bytes) (tuples : List ExchangeRateTuple)
    (hf : env.AccAddressFromBech32 msg.Feeder = .ok feeder)
    (hv : env.ValAddressFromBech32 msg.Validator = .ok validator)
    (h1 : 1 ≤ msg.ExchangeRates.length) (h2 : msg.ExchangeRates.length ≤ 4096)
    (hp : env.ParseExchangeRateTuples msg.ExchangeRates = .ok tuples)
    (hfit : ∀ t ∈ tuples, BitLen t.ExchangeRate ≤ 255 + env.DecimalPrecisionBits) :
    (msg.Salt.length ≠ 64 →
      msg.ValidateBasic env = .error (.sentinel .ErrInvalidSaltLength)) ∧
    (msg.Salt.length = 64 → (∃ c ∈ msg.Salt, isHexDigit c = false) →
      msg.ValidateBasic env =
        .error (.wrap .ErrInvalidSaltFormat "salt must be a valid hex string")) ∧
    (msg.Salt.length = 64 → (∀ c ∈ msg.Salt, isHexDigit c = true) →
      msg.ValidateBasic env = .ok ()) := by
  have hvb : msg.ValidateBasic env = saltChecks msg := by
    rw [vote_validateBasic_after_parse env msg feeder validator tuples hf hv h1 h2 hp,
      overflowLoop_ok env tuples hfit]
  rw [hvb]
  refine ⟨?_, ?_, ?_⟩
  · intro hne
    simp only [saltChecks, hne, ne_eq, not_false_eq_true, if_true]
  · rintro hs ⟨c, hc, hbad⟩
    cases hd : AggregateVoteHashFromHexString msg.Salt with
    | error e => simp only [saltChecks, hs, hd, ne_eq, not_true_eq_false, if_false]
    | ok bz =>
      have := ((parseHash_ok_iff msg.Salt).mp ⟨bz, hd⟩).2 c hc
      rw [hbad] at this
      cases this
  · intro hs hhex
    exact (saltChecks_ok_iff msg).mpr ⟨hs, hhex⟩

/-- C2, witness: the padded vote passes the earlier checks and its salt of 64
zeros is accepted. -/
theorem vote_salt_checks_witness :
    paddedVote.Salt.length = 64 ∧ paddedVote.ValidateBasic refEnv = .ok () :=
  ⟨sampleSalt_length,
    (vote_salt_checks refEnv paddedVote [1, 2] [3] _ sampleFeeder_ok sampleValidator_ok
      (by rw [show paddedVote.ExchangeRates.length = 4096 from paddedRates_length]; omega)
      (by rw [show paddedVote.ExchangeRates.length = 4096 from paddedRates_length])
      paddedRates_parse sample_rate_fits).2.2 sampleSalt_length sampleSalt_hex⟩

theorem boundaryVote_parse :
    refEnv.ParseExchangeRateTuples boundaryVote.ExchangeRates =
      .ok [{ Denom := ascii "UKUJI", ExchangeRate := 33374797436264220037422214158899251790667258161822699530422525122222183215323 * 10 ^ 18 }] := by
  rfl

theorem overflowVote_parse :
    refEnv.ParseExchangeRateTuples overflowVote.ExchangeRates =
      .ok [{ Denom := ascii "UKUJI", ExchangeRate := 66749594872528440074844428317798503581334516323645399060845050244444366430646 * 10 ^ 18 }] := by
  rfl

theorem boundary_bitLen : BitLen (33374797436264220037422214158899251790667258161822699530422525122222183215323 * 10 ^ 18) = 255 + refEnv.DecimalPrecisionBits := by
  show Nat.size (Int.natAbs (33374797436264220037422214158899251790667258161822699530422525122222183215323 * 10 ^ 18)) = 255 + 60
  apply le_antisymm
  · rw [Nat.size_le]; norm_num
  · show 314 < _
    rw [Nat.lt_size]; norm_num

theorem overflow_bitLen : BitLen (66749594872528440074844428317798503581334516323645399060845050244444366430646 * 10 ^ 18) > 255 + refEnv.DecimalPrecisionBits := by
  show 255 + 60 < Nat.size (Int.natAbs (66749594872528440074844428317798503581334516323645399060845050244444366430646 * 10 ^ 18))
  rw [Nat.lt_size]; norm_num

theorem BitLen_neg (x : Int) : BitLen (-x) = BitLen x := by
  simp [BitLen]

theorem overflowLoop_neg (env : Env) (tuples : List ExchangeRateTuple) :
    overflowLoop env
        (tuples.map (fun t => { t with ExchangeRate := -t.ExchangeRate })) =
      overflowLoop env tuples := by
  induction tuples with
  | nil => rfl
  | cons t ts ih => simp only [List.map_cons, overflowLoop, BitLen_neg, ih]

/-- C3: for a vote with valid addresses whose exchange-rate string has 1 to
4096 bytes and parses, a rate whose big integer has a bit length above
`255 + DecimalPrecisionBits` makes ValidateBasic fail with the wrapped
ErrInvalidExchangeRate "overflow"; when every rate has a bit length of at most
`255 + DecimalPrecisionBits` (the bound itself included) the overflow check
lets the message through to the salt checks; and the outcome of the check is
the same for a rate and its negation. -/
theorem vote_overflow_guard (env : Env) (msg : MsgAggregateExchangeRateVote)
    (feeder validator : Bytes) (tuples : List ExchangeRateTuple)
    (hf : env.AccAddressFromBech32 msg.Feeder = .ok feeder)
    (hv : env.ValAddressFromBech32 msg.Validator = .ok validator)
    (h1 : 1 ≤ msg.ExchangeRates.length) (h2 : msg.ExchangeRates.length ≤ 4096)
    (hp : env.ParseExchangeRateTuples msg.ExchangeRates = .ok tuples) :
    ((∃ t ∈ tuples, BitLen t.ExchangeRate > 255 + env.DecimalPrecisionBits) →
      msg.ValidateBasic env = .error (.wrap .ErrInvalidExchangeRate "overflow")) ∧
    ((∀ t ∈ tuples, BitLen t.ExchangeRate ≤ 255 + env.DecimalPrecisionBits) →
      msg.ValidateBasic env = saltChecks msg ∧
      msg.ValidateBasic env ≠ .error (.wrap .ErrInvalidExchangeRate "overflow")) ∧
    overflowLoop env (tuples.map (fun t => { t with ExchangeRate := -t.ExchangeRate })) =
      overflowLoop env tuples := by
  have hvb := vote_validateBasic_after_parse env msg feeder validator tuples hf hv h1 h2 hp
  refine ⟨?_, ?_, overflowLoop_neg env tuples⟩
  · rintro ⟨t, ht, hbig⟩
    rw [hvb, overflowLoop_error env tuples t ht hbig]
  · intro hfit
    have hs : msg.ValidateBasic env = saltChecks msg := by
      rw [hvb, overflowLoop_ok env tuples hfit]
    refine ⟨hs, ?_⟩
    rw [hs]
    unfold saltChecks
    split
    · intro h; cases h
    · split
      · intro h; cases h
      · intro h; cases h

/-- C3, witness: in the reference configuration a rate of bit length exactly
315 is accepted and a rate of bit length 316 is rejected as overflow. -/
theorem vote_overflow_guard_witness :
    boundaryVote.ValidateBasic refEnv = .ok () ∧
      overflowVote.ValidateBasic refEnv =
        .error (.wrap .ErrInvalidExchangeRate "overflow") := by
  constructor
  · have h := (vote_overflow_guard refEnv boundaryVote [1, 2] [3] _ sampleFeeder_ok
      sampleValidator_ok (by decide) (by decide) boundaryVote_parse).2.1
      (by
        intro t ht
        rw [List.mem_singleton] at ht
        subst ht
        exact le_of_eq boundary_bitLen)
    rw [h.1]
    exact (saltChecks_ok_iff boundaryVote).mpr ⟨sampleSalt_length, sampleSalt_hex⟩
  · exact (vote_overflow_guard refEnv overflowVote [1, 2] [3] _ sampleFeeder_ok
      sampleValidator_ok (by decide) (by decide) overflowVote_parse).1
      ⟨_, List.mem_singleton.mpr rfl, overflow_bitLen⟩

/-- C4: with valid feeder and validator addresses, a prevote passes
ValidateBasic exactly when its Hash consists of hex digits and has length
`tmhash.TruncatedSize * 2`; a Hash that does not decode as hex, such as any
string of odd length, gives an error wrapping ErrInvalidHash, and a Hash that
decodes but has another length gives the bare ErrInvalidHashLength. -/
theorem prevote_hash_checks (env : Env) (msg : MsgAggregateExchangeRatePrevote)
    (feeder validator : Bytes)
    (hf : env.AccAddressFromBech32 msg.Feeder = .ok feeder)
    (hv : env.ValAddressFromBech32 msg.Validator = .ok validator) :
    (msg.ValidateBasic env = .ok () ↔
      (∀ c ∈ msg.Hash, isHexDigit c = true) ∧ msg.Hash.length = env.TruncatedSize * 2) ∧
    (∀ e, AggregateVoteHashFromHexString msg.Hash = .error e →
      msg.ValidateBasic env =
        .error (.wrapf .ErrInvalidHash "Invalid vote hash (%s)" (.hex e))) ∧
    (msg.Hash.length % 2 = 1 →
      ∃ e, msg.ValidateBasic env =
        .error (.wrapf .ErrInvalidHash "Invalid vote hash (%s)" (.hex e))) ∧
    (∀ bz, AggregateVoteHashFromHexString msg.Hash = .ok bz →
      msg.Hash.length ≠ env.TruncatedSize * 2 →
      msg.ValidateBasic env = .error (.sentinel .ErrInvalidHashLength)) := by
  have herr : ∀ e, AggregateVoteHashFromHexString msg.Hash = .error e →
      msg.ValidateBasic env =
        .error (.wrapf .ErrInvalidHash "Invalid vote hash (%s)" (.hex e)) := by
    intro e he
    simp only [MsgAggregateExchangeRatePrevote.ValidateBasic, he]
  refine ⟨?_, herr, ?_, ?_⟩
  · cases hd : AggregateVoteHashFromHexString msg.Hash with
    | error e =>
      rw [herr e hd]
      have hno : ¬ ∃ bz, AggregateVoteHashFromHexString msg.Hash = .ok bz := by simp [hd]
      rw [parseHash_ok_iff] at hno
      constructor
      · intro h; cases h
      · rintro ⟨hhex, hlen⟩
        exact absurd ⟨by omega, hhex⟩ hno
    | ok bz =>
      have hyes := (parseHash_ok_iff msg.Hash).mp ⟨bz, hd⟩
      by_cases hl : msg.Hash.length = env.TruncatedSize * 2
      · simp only [MsgAggregateExchangeRatePrevote.ValidateBasic, hd, hl, hf, hv, ne_eq,
          not_true_eq_false, if_false, true_iff, and_true]
        exact hyes.2
      · simp only [MsgAggregateExchangeRatePrevote.ValidateBasic, hd, hl, ne_eq,
          not_false_eq_true, if_true, and_false, iff_false]
        intro h; cases h
  · intro hodd
    obtain ⟨e, he⟩ := hexDecodeString_odd msg.Hash hodd
    exact ⟨e, herr e he⟩
  · intro bz hd hl
    simp only [MsgAggregateExchangeRatePrevote.ValidateBasic, hd, hl, ne_eq,
      not_false_eq_true, if_true]

theorem replicate_zero_hex (n : Nat) : ∀ c ∈ List.replicate n (48 : Byte), isHexDigit c = true := by
  intro c hc
  rw [List.mem_replicate] at hc
  rw [hc.2]
  rfl

/-- C4, witness: a prevote of the reference configuration with 40 hex digits
of Hash is accepted. -/
theorem prevote_hash_checks_witness : samplePrevote.ValidateBasic refEnv = .ok () :=
  (prevote_hash_checks refEnv samplePrevote [1, 2] [3] sampleFeeder_ok
    sampleValidator_ok).1.mpr ⟨replicate_zero_hex 40, by rfl⟩

/-- C5, as stated, fails: with CometBFT's `tmhash.TruncatedSize = 20` a prevote
whose Hash is 64 hex digits and whose addresses are valid is rejected with
ErrInvalidHashLength, and an accepted prevote carries 40 hex digits. -/
theorem prevote_hash_32_bytes_counterexample :
    (longHashPrevote.Hash.length = 64 ∧
      (∀ c ∈ longHashPrevote.Hash, isHexDigit c = true) ∧
      refEnv.AccAddressFromBech32 longHashPrevote.Feeder = .ok [1, 2] ∧
      refEnv.ValAddressFromBech32 longHashPrevote.Validator = .ok [3] ∧
      longHashPrevote.ValidateBasic refEnv = .error (.sentinel .ErrInvalidHashLength)) ∧
    (samplePrevote.ValidateBasic refEnv = .ok () ∧ samplePrevote.Hash.length = 40) := by
  refine ⟨⟨by rfl, replicate_zero_hex 64, sampleFeeder_ok, sampleValidator_ok, by rfl⟩,
    by rfl, by rfl⟩

/-- C5, amended: an accepted prevote carries a Hash that decodes as hex to
exactly `tmhash.TruncatedSize` bytes, written in `2 * tmhash.TruncatedSize`
hex digits, and every prevote with valid addresses whose Hash is
`2 * tmhash.TruncatedSize` hex digits is accepted. -/
theorem prevote_hash_is_truncated_digest (env : Env)
    (msg : MsgAggregateExchangeRatePrevote) :
    (msg.ValidateBasic env = .ok () →
      ∃ bz, AggregateVoteHashFromHexString msg.Hash = .ok bz ∧
        bz.length = env.TruncatedSize ∧ msg.Hash.length = 2 * env.TruncatedSize ∧
        ∀ c ∈ msg.Hash, isHexDigit c = true) ∧
    (∀ feeder validator, env.AccAddressFromBech32 msg.Feeder = .ok feeder →
      env.ValAddressFromBech32 msg.Validator = .ok validator →
      msg.Hash.length = 2 * env.TruncatedSize → (∀ c ∈ msg.Hash, isHexDigit c = true) →
      msg.ValidateBasic env = .ok ()) := by
  constructor
  · intro hok
    cases hd : AggregateVoteHashFromHexString msg.Hash with
    | error e =>
      simp only [MsgAggregateExchangeRatePrevote.ValidateBasic, hd] at hok
      cases hok
    | ok bz =>
      by_cases hl : msg.Hash.length = env.TruncatedSize * 2
      · have h2 := hexDecodeString_length msg.Hash bz hd
        exact ⟨bz, rfl, by omega, by omega, ((parseHash_ok_iff msg.Hash).mp ⟨bz, hd⟩).2⟩
      · simp only [MsgAggregateExchangeRatePrevote.ValidateBasic, hd, hl, ne_eq,
          not_false_eq_true, if_true] at hok
        cases hok
  · intro feeder validator hf hv hl hhex
    obtain ⟨bz, hd⟩ := (parseHash_ok_iff msg.Hash).mpr ⟨by omega, hhex⟩
    have hl2 : msg.Hash.length = env.TruncatedSize * 2 := by omega
    simp only [MsgAggregateExchangeRatePrevote.ValidateBasic, hd, hl2, hf, hv, ne_eq,
      not_true_eq_false, if_false]

/-- C5, witness of the amended claim: the prevote with 40 hex digits is
accepted in the reference configuration, and its Hash decodes to 20 bytes. -/
theorem prevote_hash_is_truncated_digest_witness :
    samplePrevote.ValidateBasic refEnv = .ok () ∧
      ∃ bz, AggregateVoteHashFromHexString samplePrevote.Hash = .ok bz ∧
        bz.length = 20 ∧ samplePrevote.Hash.length = 2 * 20 ∧
        ∀ c ∈ samplePrevote.Hash, isHexDigit c = true :=
  have hok : samplePrevote.ValidateBasic refEnv = .ok () :=
    (prevote_hash_is_truncated_digest refEnv samplePrevote).2 [1, 2] [3] sampleFeeder_ok
      sampleValidator_ok (by rfl) (replicate_zero_hex 40)
  ⟨hok, (prevote_hash_is_truncated_digest refEnv samplePrevote).1 hok⟩

/-- C6: GetSigners returns exactly one account.  For a prevote and for a vote
it is the account parsed from Feeder, whatever the Validator field holds; for
a delegation it is the account with the bytes of the parsed Operator, whatever
the Delegate field holds; for the three authority messages it is the account
parsed from Authority. -/
theorem getSigners_single_account (env : Env) :
    (∀ (msg : MsgAggregateExchangeRatePrevote) (feeder : Bytes),
      env.AccAddressFromBech32 msg.Feeder = .ok feeder →
      msg.GetSigners env = .ok [feeder] ∧
      ∀ other, ({ msg with Validator := other }).GetSigners env = .ok [feeder]) ∧
    (∀ (msg : MsgAggregateExchangeRateVote) (feeder : Bytes),
      env.AccAddressFromBech32 msg.Feeder = .ok feeder →
      msg.GetSigners env = .ok [feeder] ∧
      ∀ other, ({ msg with Validator := other }).GetSigners env = .ok [feeder]) ∧
    (∀ (msg : MsgDelegateFeedConsent) (operator : Bytes),
      env.ValAddressFromBech32 msg.Operator = .ok operator →
      msg.GetSigners env = .ok [operator] ∧
      ∀ other, ({ msg with Delegate := other }).GetSigners env = .ok [operator]) ∧
    (∀ (msg : MsgAddRequiredDenom) (authority : Bytes),
      env.AccAddressFromBech32 msg.Authority = .ok authority →
      msg.GetSigners env = .ok [authority]) ∧
    (∀ (msg : MsgRemoveRequiredDenom) (authority : Bytes),
      env.AccAddressFromBech32 msg.Authority = .ok authority →
      msg.GetSigners env = .ok [authority]) ∧
    (∀ (P : Type) (msg : MsgUpdateParams P) (authority : Bytes),
      env.AccAddressFromBech32 msg.Authority = .ok authority →
      msg.GetSigners env = .ok [authority]) := by
  refine ⟨?_, ?_, ?_, ?_, ?_, ?_⟩
  · intro msg feeder h
    constructor
    · simp only [MsgAggregateExchangeRatePrevote.GetSigners, h]
    · intro other
      simp only [MsgAggregateExchangeRatePrevote.GetSigners, h]
  · intro msg feeder h
    constructor
    · simp only [MsgAggregateExchangeRateVote.GetSigners, h]
    · intro other
      simp only [MsgAggregateExchangeRateVote.GetSigners, h]
  · intro msg operator h
    constructor
    · simp only [MsgDelegateFeedConsent.GetSigners, h]
    · intro other
      simp only [MsgDelegateFeedConsent.GetSigners, h]
  · intro msg authority h
    simp only [MsgAddRequiredDenom.GetSigners, addrIgnoringError, h]
  · intro msg authority h
    simp only [MsgRemoveRequiredDenom.GetSigners, addrIgnoringError, h]
  · intro P msg authority h
    simp only [MsgUpdateParams.GetSigners, addrIgnoringError, h]

/-- C6, witness: in the reference configuration the signer of the sample
prevote is its feeder `[1, 2]`, that of the sample delegation its operator
`[3]`, and that of an authority message its authority. -/
theorem getSigners_single_account_witness :
    samplePrevote.GetSigners refEnv = .ok [[1, 2]] ∧
      sampleDelegation.GetSigners refEnv = .ok [[3]] ∧
      MsgAddRequiredDenom.GetSigners refEnv
        { Authority := sampleFeeder, Symbol := ascii "USK" } = .ok [[1, 2]] :=
  ⟨((getSigners_single_account refEnv).1 samplePrevote [1, 2] sampleFeeder_ok).1,
    ((getSigners_single_account refEnv).2.2.1 sampleDelegation [3] sampleValidator_ok).1,
    (getSigners_single_account refEnv).2.2.2.1 _ [1, 2] sampleFeeder_ok⟩

theorem long_feeder_rejected :
    (NewMsgAggregateExchangeRatePrevote refEnv (List.replicate 20 7)
        (List.replicate 256 0) [3]).ValidateBasic refEnv =
      .error (.wrapf .ErrInvalidAddress "Invalid feeder address (%s)"
        (.text "address max length is 255")) := by
  rfl

/-- C7, as stated, fails: with the SDK's default address rule (at most 255
bytes) the prevote built from a 20-byte hash, a non-empty feeder address of
256 bytes and a valid validator address does not pass ValidateBasic. -/
theorem prevote_round_trip_counterexample :
    (List.replicate 20 (7 : Byte)).length = refEnv.TruncatedSize ∧
      List.replicate 256 (0 : Byte) ≠ [] ∧ ([3] : Bytes) ≠ [] ∧
      ∃ e, (NewMsgAggregateExchangeRatePrevote refEnv (List.replicate 20 7)
          (List.replicate 256 0) [3]).ValidateBasic refEnv =
        .error (.wrapf .ErrInvalidAddress "Invalid feeder address (%s)" (.text e)) :=
  ⟨by rfl, List.cons_ne_nil 0 (List.replicate 255 0), List.cons_ne_nil 3 [], _,
    long_feeder_rejected⟩

/-- C7, amended: for a hash of `tmhash.TruncatedSize` bytes and feeder and
validator addresses that the address codec prints and reads back, the message
built by NewMsgAggregateExchangeRatePrevote passes ValidateBasic, its Hash
field parses back to the hash, and GetSigners returns the feeder alone. -/
theorem prevote_round_trip (env : Env) (h feeder validator : Bytes)
    (hlen : h.length = env.TruncatedSize)
    (hf : env.AccAddressFromBech32 (env.AccAddressString feeder) = .ok feeder)
    (hv : env.ValAddressFromBech32 (env.ValAddressString validator) = .ok validator) :
    (NewMsgAggregateExchangeRatePrevote env h feeder validator).ValidateBasic env = .ok () ∧
    AggregateVoteHashFromHexString
      (NewMsgAggregateExchangeRatePrevote env h feeder validator).Hash = .ok h ∧
    (NewMsgAggregateExchangeRatePrevote env h feeder validator).GetSigners env =
      .ok [feeder] := by
  have hd : AggregateVoteHashFromHexString (AggregateVoteHash.String h) = .ok h :=
    hexDecodeString_hexEncodeToString h
  have hl : (AggregateVoteHash.String h).length = env.TruncatedSize * 2 := by
    have := hexEncodeToString_length h
    simp only [AggregateVoteHash.String]
    omega
  refine ⟨?_, hd, ?_⟩
  · simp only [MsgAggregateExchangeRatePrevote.ValidateBasic,
      NewMsgAggregateExchangeRatePrevote, hd, hl, hf, hv, ne_eq, not_true_eq_false,
      if_false]
  · simp only [MsgAggregateExchangeRatePrevote.GetSigners,
      NewMsgAggregateExchangeRatePrevote, hf]

/-- C7, witness of the amended claim: a 20-byte hash, the feeder `[1, 2]` and
the validator `[3]` in the reference configuration. -/
theorem prevote_round_trip_witness :
    (NewMsgAggregateExchangeRatePrevote refEnv (List.replicate 20 7) [1, 2]
        [3]).ValidateBasic refEnv = .ok () ∧
    AggregateVoteHashFromHexString
      (NewMsgAggregateExchangeRatePrevote refEnv (List.replicate 20 7) [1, 2] [3]).Hash =
        .ok (List.replicate 20 7) ∧
    (NewMsgAggregateExchangeRatePrevote refEnv (List.replicate 20 7) [1, 2]
        [3]).GetSigners refEnv = .ok [[1, 2]] :=
  prevote_round_trip refEnv (List.replicate 20 7) [1, 2] [3] (by rfl) (by rfl) (by rfl)

theorem overflowLoop_eq_any (env : Env) (tuples : List ExchangeRateTuple) :
    overflowLoop env tuples =
      if tuples.any (fun t => BitLen t.ExchangeRate > 255 + env.DecimalPrecisionBits) then
        .error (.wrap .ErrInvalidExchangeRate "overflow")
      else .ok () := by
  induction tuples with
  | nil => simp [overflowLoop]
  | cons t ts ih =>
    by_cases h : BitLen t.ExchangeRate > 255 + env.DecimalPrecisionBits
    · simp [overflowLoop, h]
    · simp only [overflowLoop, h, if_false, ih, List.any_cons, decide_False, Bool.false_or]

theorem saltChecks_eq_firstFailure (msg : MsgAggregateExchangeRateVote) :
    saltChecks msg =
      firstFailure
        [ (if msg.Salt.length ≠ 64 then some (.sentinel .ErrInvalidSaltLength) else none),
          (if msg.Salt.all isHexDigit then none
           else some (.wrap .ErrInvalidSaltFormat "salt must be a valid hex string")) ] := by
  by_cases hl : msg.Salt.length = 64
  · by_cases hx : ∀ c ∈ msg.Salt, isHexDigit c = true
    · have hall : msg.Salt.all isHexDigit = true := List.all_eq_true.mpr hx
      rw [(saltChecks_ok_iff msg).mpr ⟨hl, hx⟩]
      simp [firstFailure, hl, hall]
    · have hall : ¬ msg.Salt.all isHexDigit = true := fun h => hx (List.all_eq_true.mp h)
      cases hd : AggregateVoteHashFromHexString msg.Salt with
      | error e =>
        simp only [saltChecks, hd, hl, hall, firstFailure, ne_eq, not_true_eq_false, if_false]
      | ok bz => exact absurd ((parseHash_ok_iff msg.Salt).mp ⟨bz, hd⟩).2 hx
  · simp [saltChecks, firstFailure, hl]

/-- C8: the vote's ValidateBasic returns nil exactly when the feeder is a valid
account address, the validator a valid validator address, the exchange-rate
string has 1 to 4096 bytes and parses, every parsed rate has a bit length of
at most `255 + DecimalPrecisionBits`, and the salt is 64 hex digits; and in
every case its result is the error of the first failing check in the order
feeder address, validator address, empty rates, oversized rates, parse
failure, overflow, salt length, salt format. -/
theorem vote_validateBasic_all_checks_in_order (env : Env)
    (msg : MsgAggregateExchangeRateVote) :
    (msg.ValidateBasic env = .ok () ↔
      (∃ feeder, env.AccAddressFromBech32 msg.Feeder = .ok feeder) ∧
      (∃ validator, env.ValAddressFromBech32 msg.Validator = .ok validator) ∧
      1 ≤ msg.ExchangeRates.length ∧ msg.ExchangeRates.length ≤ 4096 ∧
      (∃ tuples, env.ParseExchangeRateTuples msg.ExchangeRates = .ok tuples ∧
        ∀ t ∈ tuples, BitLen t.ExchangeRate ≤ 255 + env.DecimalPrecisionBits) ∧
      msg.Salt.length = 64 ∧ ∀ c ∈ msg.Salt, isHexDigit c = true) ∧
    msg.ValidateBasic env = firstFailure (specVoteChecks env msg) := by
  constructor
  · constructor
    · intro hok
      cases hf : env.AccAddressFromBech32 msg.Feeder with
      | error e =>
        simp only [MsgAggregateExchangeRateVote.ValidateBasic, hf] at hok
        cases hok
      | ok feeder =>
        cases hv : env.ValAddressFromBech32 msg.Validator with
        | error e =>
          simp only [MsgAggregateExchangeRateVote.ValidateBasic, hf, hv] at hok
          cases hok
        | ok validator =>
          by_cases h0 : msg.ExchangeRates.length = 0
          · simp only [MsgAggregateExchangeRateVote.ValidateBasic, hf, hv, h0, if_true] at hok
            cases hok
          by_cases h1 : msg.ExchangeRates.length > 4096
          · simp only [MsgAggregateExchangeRateVote.ValidateBasic, hf, hv, h0, h1, if_true,
              if_false] at hok
            cases hok
          cases hp : env.ParseExchangeRateTuples msg.ExchangeRates with
          | error e =>
            simp only [MsgAggregateExchangeRateVote.ValidateBasic, hf, hv, h0, h1, hp,
              if_false] at hok
            cases hok
          | ok tuples =>
            rw [vote_validateBasic_after_parse env msg feeder validator tuples hf hv
              (by omega) (by omega) hp] at hok
            rcases overflowLoop_cases env tuples with ⟨ho, hfit⟩ | ⟨ho, _⟩
            · rw [ho] at hok
              have hs := (saltChecks_ok_iff msg).mp hok
              exact ⟨⟨feeder, rfl⟩, ⟨validator, rfl⟩, by omega, by omega,
                ⟨tuples, rfl, hfit⟩, hs.1, hs.2⟩
            · rw [ho] at hok
              cases hok
    · rintro ⟨⟨feeder, hf⟩, ⟨validator, hv⟩, h1, h2, ⟨tuples, hp, hfit⟩, hs, hhex⟩
      rw [vote_validateBasic_after_parse env msg feeder validator tuples hf hv h1 h2 hp,
        overflowLoop_ok env tuples hfit]
      exact (saltChecks_ok_iff msg).mpr ⟨hs, hhex⟩
  · cases hf : env.AccAddressFromBech32 msg.Feeder with
    | error e =>
      simp only [MsgAggregateExchangeRateVote.ValidateBasic, specVoteChecks, firstFailure, hf]
    | ok feeder =>
      cases hv : env.ValAddressFromBech32 msg.Validator with
      | error e =>
        simp only [MsgAggregateExchangeRateVote.ValidateBasic, specVoteChecks, firstFailure,
          hf, hv]
      | ok validator =>
        by_cases h0 : msg.ExchangeRates.length = 0
        · simp only [MsgAggregateExchangeRateVote.ValidateBasic, specVoteChecks, firstFailure,
            hf, hv, h0, if_true]
        by_cases h1 : msg.ExchangeRates.length > 4096
        · simp only [MsgAggregateExchangeRateVote.ValidateBasic, specVoteChecks, firstFailure,
            hf, hv, h0, h1, if_true, if_false]
        cases hp : env.ParseExchangeRateTuples msg.ExchangeRates with
        | error e =>
          simp only [MsgAggregateExchangeRateVote.ValidateBasic, specVoteChecks, firstFailure,
            hf, hv, h0, h1, hp, if_false]
        | ok tuples =>
          rw [vote_validateBasic_after_parse env msg feeder validator tuples hf hv
            (by omega) (by omega) hp, overflowLoop_eq_any, saltChecks_eq_firstFailure]
          cases ha : tuples.any
              (fun t => decide (BitLen t.ExchangeRate > 255 + env.DecimalPrecisionBits))
          · simp only [specVoteChecks, firstFailure, hf, hv, h0, h1, hp, ha, if_false,
              Bool.false_eq_true]
          · simp only [specVoteChecks, firstFailure, hf, hv, h0, h1, hp, ha, if_true, if_false]

/-- C9: a prevote, a vote or a delegation that passes ValidateBasic has a
GetSigners that does not panic and returns one signer; a prevote or a vote
whose Feeder does not parse, and a delegation whose Operator does not parse,
make GetSigners panic with the parse error; the three authority messages never
panic, return one address, and return the empty address when Authority does
not parse. -/
theorem getSigners_panic_freedom (env : Env) :
    ((∀ msg : MsgAggregateExchangeRatePrevote, msg.ValidateBasic env = .ok () →
        ∃ signer, msg.GetSigners env = .ok [signer]) ∧
      (∀ msg : MsgAggregateExchangeRateVote, msg.ValidateBasic env = .ok () →
        ∃ signer, msg.GetSigners env = .ok [signer]) ∧
      (∀ msg : MsgDelegateFeedConsent, msg.ValidateBasic env = .ok () →
        ∃ signer, msg.GetSigners env = .ok [signer])) ∧
    ((∀ (msg : MsgAggregateExchangeRatePrevote) (err : String),
        env.AccAddressFromBech32 msg.Feeder = .error err →
        msg.GetSigners env = .error err) ∧
      (∀ (msg : MsgAggregateExchangeRateVote) (err : String),
        env.AccAddressFromBech32 msg.Feeder = .error err →
        msg.GetSigners env = .error err) ∧
      (∀ (msg : MsgDelegateFeedConsent) (err : String),
        env.ValAddressFromBech32 msg.Operator = .error err →
        msg.GetSigners env = .error err)) ∧
    ((∀ msg : MsgAddRequiredDenom, (∃ signer, msg.GetSigners env = .ok [signer]) ∧
        ∀ err, env.AccAddressFromBech32 msg.Authority = .error err →
          msg.GetSigners env = .ok [[]]) ∧
      (∀ msg : MsgRemoveRequiredDenom, (∃ signer, msg.GetSigners env = .ok [signer]) ∧
        ∀ err, env.AccAddressFromBech32 msg.Authority = .error err →
          msg.GetSigners env = .ok [[]]) ∧
      (∀ (P : Type) (msg : MsgUpdateParams P),
        (∃ signer, msg.GetSigners env = .ok [signer]) ∧
        ∀ err, env.AccAddressFromBech32 msg.Authority = .error err →
          msg.GetSigners env = .ok [[]])) := by
  refine ⟨⟨?_, ?_, ?_⟩, ⟨?_, ?_, ?_⟩, ⟨?_, ?_, ?_⟩⟩
  · intro msg hok
    cases hf : env.AccAddressFromBech32 msg.Feeder with
    | ok feeder => exact ⟨feeder, by simp only [MsgAggregateExchangeRatePrevote.GetSigners, hf]⟩
    | error e =>
      exfalso
      unfold MsgAggregateExchangeRatePrevote.ValidateBasic at hok
      rw [hf] at hok
      split at hok
      · cases hok
      · split at hok
        · cases hok
        · cases hok
  · intro msg hok
    cases hf : env.AccAddressFromBech32 msg.Feeder with
    | ok feeder => exact ⟨feeder, by simp only [MsgAggregateExchangeRateVote.GetSigners, hf]⟩
    | error e =>
      simp only [MsgAggregateExchangeRateVote.ValidateBasic, hf] at hok
      cases hok
  · intro msg hok
    cases hv : env.ValAddressFromBech32 msg.Operator with
    | ok operator => exact ⟨operator, by simp only [MsgDelegateFeedConsent.GetSigners, hv]⟩
    | error e =>
      simp only [MsgDelegateFeedConsent.ValidateBasic, hv] at hok
      cases hok
  · intro msg err h
    simp only [MsgAggregateExchangeRatePrevote.GetSigners, h]
  · intro msg err h
    simp only [MsgAggregateExchangeRateVote.GetSigners, h]
  · intro msg err h
    simp only [MsgDelegateFeedConsent.GetSigners, h]
  · intro msg
    exact ⟨⟨_, rfl⟩, fun err h => by
      simp only [MsgAddRequiredDenom.GetSigners, addrIgnoringError, h]⟩
  · intro msg
    exact ⟨⟨_, rfl⟩, fun err h => by
      simp only [MsgRemoveRequiredDenom.GetSigners, addrIgnoringError, h]⟩
  · intro P msg
    exact ⟨⟨_, rfl⟩, fun err h => by
      simp only [MsgUpdateParams.GetSigners, addrIgnoringError, h]⟩

/-- C9, witness: in the reference configuration the validated sample prevote
has a signer, the prevote with a malformed Feeder panics, and an authority
message with a malformed Authority yields one empty address. -/
theorem getSigners_panic_freedom_witness :
    (∃ signer, samplePrevote.GetSigners refEnv = .ok [signer]) ∧
      badFeederPrevote.GetSigners refEnv = .error "invalid Bech32 prefix" ∧
      MsgAddRequiredDenom.GetSigners refEnv
        { Authority := ascii "gov", Symbol := ascii "USK" } = .ok [[]] :=
  ⟨(getSigners_panic_freedom refEnv).1.1 samplePrevote (by rfl),
    (getSigners_panic_freedom refEnv).2.1.1 badFeederPrevote _ (by rfl),
    ((getSigners_panic_freedom refEnv).2.2.1 _).2 "invalid Bech32 prefix" (by rfl)⟩

/-- ValidateBasic does not count the parsed tuples itself: with valid
addresses, a string of 1 to 4096 bytes for which the parser returns no tuple
and no error, and a salt of 64 hex digits, it returns nil. -/
theorem vote_tuple_count_not_checked (env : Env) (msg : MsgAggregateExchangeRateVote)
    (feeder validator : Bytes)
    (hf : env.AccAddressFromBech32 msg.Feeder = .ok feeder)
    (hv : env.ValAddressFromBech32 msg.Validator = .ok validator)
    (h1 : 1 ≤ msg.ExchangeRates.length) (h2 : msg.ExchangeRates.length ≤ 4096)
    (hp : env.ParseExchangeRateTuples msg.ExchangeRates = .ok [])
    (hs : msg.Salt.length = 64) (hhex : ∀ c ∈ msg.Salt, isHexDigit c = true) :
    msg.ValidateBasic env = .ok () := by
  rw [vote_validateBasic_after_parse env msg feeder validator [] hf hv h1 h2 hp]
  exact (saltChecks_ok_iff msg).mpr ⟨hs, hhex⟩

/-- C11: for MsgAddRequiredDenom, MsgRemoveRequiredDenom and MsgUpdateParams,
ValidateBasic returns nil exactly when Authority parses as an account address,
and two messages of the same kind with the same Authority get the same result,
whatever their Symbol or Params. -/
theorem authority_validateBasic_only_authority (env : Env) :
    ((∀ msg : MsgAddRequiredDenom, msg.ValidateBasic env = .ok () ↔
        ∃ authority, env.AccAddressFromBech32 msg.Authority = .ok authority) ∧
      (∀ m₁ m₂ : MsgAddRequiredDenom, m₁.Authority = m₂.Authority →
        m₁.ValidateBasic env = m₂.ValidateBasic env)) ∧
    ((∀ msg : MsgRemoveRequiredDenom, msg.ValidateBasic env = .ok () ↔
        ∃ authority, env.AccAddressFromBech32 msg.Authority = .ok authority) ∧
      (∀ m₁ m₂ : MsgRemoveRequiredDenom, m₁.Authority = m₂.Authority →
        m₁.ValidateBasic env = m₂.ValidateBasic env)) ∧
    ((∀ (P : Type) (msg : MsgUpdateParams P), msg.ValidateBasic env = .ok () ↔
        ∃ authority, env.AccAddressFromBech32 msg.Authority = .ok authority) ∧
      (∀ (P : Type) (m₁ m₂ : MsgUpdateParams P), m₁.Authority = m₂.Authority →
        m₁.ValidateBasic env = m₂.ValidateBasic env)) := by
  refine ⟨⟨?_, ?_⟩, ⟨?_, ?_⟩, ⟨?_, ?_⟩⟩
  · intro msg
    cases h : env.AccAddressFromBech32 msg.Authority with
    | error e =>
      simp only [MsgAddRequiredDenom.ValidateBasic, h]
      constructor
      · intro hok; cases hok
      · rintro ⟨a, ha⟩; cases ha
    | ok a =>
      simp only [MsgAddRequiredDenom.ValidateBasic, h, true_iff]
      exact ⟨a, rfl⟩
  · intro m₁ m₂ heq
    simp only [MsgAddRequiredDenom.ValidateBasic, heq]
  · intro msg
    cases h : env.AccAddressFromBech32 msg.Authority with
    | error e =>
      simp only [MsgRemoveRequiredDenom.ValidateBasic, h]
      constructor
      · intro hok; cases hok
      · rintro ⟨a, ha⟩; cases ha
    | ok a =>
      simp only [MsgRemoveRequiredDenom.ValidateBasic, h, true_iff]
      exact ⟨a, rfl⟩
  · intro m₁ m₂ heq
    simp only [MsgRemoveRequiredDenom.ValidateBasic, heq]
  · intro P msg
    cases h : env.AccAddressFromBech32 msg.Authority with
    | error e =>
      simp only [MsgUpdateParams.ValidateBasic, h]
      constructor
      · intro hok; cases hok
      · rintro ⟨a, ha⟩; cases ha
    | ok a =>
      simp only [MsgUpdateParams.ValidateBasic, h, true_iff]
      exact ⟨a, rfl⟩
  · intro P m₁ m₂ heq
    simp only [MsgUpdateParams.ValidateBasic, heq]

/-- C11, witness: in the reference configuration two MsgAddRequiredDenom with
the same Authority, one with the Symbol `USK` and one with the empty Symbol,
get the same result, and so do two MsgUpdateParams with nil and non-nil
Params. -/
theorem authority_validateBasic_only_authority_witness :
    MsgAddRequiredDenom.ValidateBasic refEnv
        { Authority := sampleFeeder, Symbol := ascii "USK" } =
      MsgAddRequiredDenom.ValidateBasic refEnv { Authority := sampleFeeder, Symbol := [] } ∧
    MsgUpdateParams.ValidateBasic refEnv
        ({ Authority := ascii "gov", Params := none } : MsgUpdateParams Nat) =
      MsgUpdateParams.ValidateBasic refEnv { Authority := ascii "gov", Params := some 7 } :=
  ⟨(authority_validateBasic_only_authority refEnv).1.2 _ _ rfl,
    (authority_validateBasic_only_authority refEnv).2.2.2 Nat _ _ rfl⟩

/-- C12: the three constructors leave Authority empty.  Where the address
parser rejects the empty string, as `sdk.AccAddressFromBech32` does, the
message they return is rejected by ValidateBasic with an error wrapping
ErrInvalidAddress for every symbol and every params value, its GetSigners
yields one empty address, and the message passes once Authority is set to a
string that parses. -/
theorem new_authority_msgs_rejected (env : Env) (err : String)
    (hempty : env.AccAddressFromBech32 [] = .error err) :
    (∀ symbol : GoString,
      (NewMsgAddRequiredDenom symbol).Authority = [] ∧
      (NewMsgAddRequiredDenom symbol).ValidateBasic env =
        .error (.wrapf .ErrInvalidAddress "Invalid authority address (%s)" (.text err)) ∧
      (NewMsgAddRequiredDenom symbol).GetSigners env = .ok [[]] ∧
      ∀ authority addr, env.AccAddressFromBech32 authority = .ok addr →
        MsgAddRequiredDenom.ValidateBasic env
          { NewMsgAddRequiredDenom symbol with Authority := authority } = .ok ()) ∧
    (∀ symbol : GoString,
      (NewMsgRemoveRequiredDenom symbol).Authority = [] ∧
      (NewMsgRemoveRequiredDenom symbol).ValidateBasic env =
        .error (.wrapf .ErrInvalidAddress "Invalid authority address (%s)" (.text err)) ∧
      (NewMsgRemoveRequiredDenom symbol).GetSigners env = .ok [[]] ∧
      ∀ authority addr, env.AccAddressFromBech32 authority = .ok addr →
        MsgRemoveRequiredDenom.ValidateBasic env
          { NewMsgRemoveRequiredDenom symbol with Authority := authority } = .ok ()) ∧
    (∀ (P : Type) (params : Option P),
      (NewMsgUpdateParams params).Authority = [] ∧
      (NewMsgUpdateParams params).ValidateBasic env =
        .error (.wrapf .ErrInvalidAddress "Invalid authority address (%s)" (.text err)) ∧
      (NewMsgUpdateParams params).GetSigners env = .ok [[]] ∧
      ∀ authority addr, env.AccAddressFromBech32 authority = .ok addr →
        MsgUpdateParams.ValidateBasic env
          { NewMsgUpdateParams params with Authority := authority } = .ok ()) := by
  refine ⟨?_, ?_, ?_⟩
  · intro symbol
    refine ⟨rfl, ?_, ?_, ?_⟩
    · simp only [MsgAddRequiredDenom.ValidateBasic, NewMsgAddRequiredDenom, hempty]
    · simp only [MsgAddRequiredDenom.GetSigners, NewMsgAddRequiredDenom, addrIgnoringError,
        hempty]
    · intro authority addr h
      simp only [MsgAddRequiredDenom.ValidateBasic, h]
  · intro symbol
    refine ⟨rfl, ?_, ?_, ?_⟩
    · simp only [MsgRemoveRequiredDenom.ValidateBasic, NewMsgRemoveRequiredDenom, hempty]
    · simp only [MsgRemoveRequiredDenom.GetSigners, NewMsgRemoveRequiredDenom,
        addrIgnoringError, hempty]
    · intro authority addr h
      simp only [MsgRemoveRequiredDenom.ValidateBasic, h]
  · intro P params
    refine ⟨rfl, ?_, ?_, ?_⟩
    · simp only [MsgUpdateParams.ValidateBasic, NewMsgUpdateParams, hempty]
    · simp only [MsgUpdateParams.GetSigners, NewMsgUpdateParams, addrIgnoringError, hempty]
    · intro authority addr h
      simp only [MsgUpdateParams.ValidateBasic, h]

/-- C12, witness: the reference configuration rejects the empty address
string, so `NewMsgAddRequiredDenom "USK"` fails ValidateBasic with the wrapped
ErrInvalidAddress, and it passes once Authority is the sample address. -/
theorem new_authority_msgs_rejected_witness :
    refEnv.AccAddressFromBech32 [] = .error "empty address string is not allowed" ∧
    (NewMsgAddRequiredDenom (ascii "USK")).ValidateBasic refEnv =
      .error (.wrapf .ErrInvalidAddress "Invalid authority address (%s)"
        (.text "empty address string is not allowed")) ∧
    (NewMsgAddRequiredDenom (ascii "USK")).GetSigners refEnv = .ok [[]] ∧
    MsgAddRequiredDenom.ValidateBasic refEnv
      { NewMsgAddRequiredDenom (ascii "USK") with Authority := sampleFeeder } = .ok () :=
  have h := (new_authority_msgs_rejected refEnv "empty address string is not allowed"
    (by rfl)).1 (ascii "USK")
  ⟨by rfl, h.2.1, h.2.2.1, h.2.2.2 sampleFeeder [1, 2] sampleFeeder_ok⟩

end Oracle
